import Mathlib

/-!
Verification development for the P&L field-normalization pipeline of the
cfo-app backend.

The pipeline lives in two near-duplicate modules:
* `backend/api/document_analysis.py` (registered in `backend/main.py`, hence
  the active path): `_process_azure_result`, `_extract_pnl_from_content`,
  `_find_adjacent_value`;
* `backend/api/document_analysis_complete.py` (dormant duplicate):
  `_process_azure_result` (field mapping and coercion) and
  `_extract_pnl_from_tables`.

Modelling conventions:
* Python floats are modelled as rationals (`Rat`); the numeric strings this
  pipeline manipulates are plain decimal numerals, for which the rational
  value is exact.  `float()` is modelled on decimal numerals with optional
  sign, fraction and exponent; the special spellings `inf`/`nan` and
  underscore digit separators are outside the model.
* Python dicts are modelled as insertion-ordered association lists; dict
  assignment is `dupsert` (update in place if the key exists, else append),
  which is exactly CPython's observable dict behaviour.
* Optional attributes of the upstream SDK objects (guarded by `hasattr` in
  the source) are modelled as `Option` fields.
* Geometry metadata (`boundingRegions`, `polygon`) is constant noise in the
  source and is not modelled.
-/

/-- A Python scalar as it occurs in extracted fields: a number (float,
modelled as a rational) or a string. -/
inductive Scalar where
  | num (q : Rat)
  | str (s : String)
deriving DecidableEq

/-- `isinstance(v, (int, float))` on a `Scalar`. -/
def isNum : Scalar → Bool
  | .num _ => true
  | .str _ => false

/-- `str(v)` for a scalar (float rendering defined below). -/
def lowerStr (s : String) : String := String.mk (s.toList.map Char.toLower)

/-- Python `s.strip()` (ASCII whitespace). -/
def stripStr (s : String) : String :=
  String.mk (((s.toList.dropWhile Char.isWhitespace).reverse.dropWhile Char.isWhitespace).reverse)

/-- Python `s.replace(c, "")` for a one-character needle. -/
def removeChar (s : String) (c : Char) : String :=
  String.mk (s.toList.filter (fun d => d ≠ c))

/-- Python substring test `pat in s`. -/
def containsSub (s pat : String) : Bool :=
  s.toList.tails.any (fun t => pat.toList.isPrefixOf t)

/-- Numeric value of a list of decimal digit characters. -/
def digitsToNat (l : List Char) : Nat :=
  l.foldl (fun a c => a * 10 + (c.toNat - 48)) 0

/-- Model of CPython `float(s)` restricted to plain decimal numerals:
optional surrounding whitespace, optional sign, digits with an optional
fractional part and an optional decimal exponent.  Returns `none` exactly
when `float` raises `ValueError` on such inputs. -/
def parseFloat (s : String) : Option Rat :=
  let cs := (stripStr s).toList
  let signAndRest : Bool × List Char :=
    match cs with
    | '+' :: t => (false, t)
    | '-' :: t => (true, t)
    | t => (false, t)
  let neg := signAndRest.1
  let cs1 := signAndRest.2
  let intDigits := cs1.takeWhile Char.isDigit
  let rest := cs1.dropWhile Char.isDigit
  let fracAndRest : List Char × List Char :=
    match rest with
    | '.' :: t => (t.takeWhile Char.isDigit, t.dropWhile Char.isDigit)
    | t => ([], t)
  let fracDigits := fracAndRest.1
  let rest2 := fracAndRest.2
  if intDigits.isEmpty ∧ fracDigits.isEmpty then none
  else
    -- the exact value sign * mantDigits / 10 ^ (number of fractional digits),
    -- built through `mkRat` so that the construction is kernel-computable
    let m : Int := digitsToNat (intDigits ++ fracDigits)
    let sm : Int := if neg then -m else m
    let fl := fracDigits.length
    match rest2 with
    | [] => some (mkRat sm (10 ^ fl))
    | e :: t =>
      if e = 'e' ∨ e = 'E' then
        let esignAndRest : Bool × List Char :=
          match t with
          | '+' :: u => (false, u)
          | '-' :: u => (true, u)
          | u => (false, u)
        let eds := esignAndRest.2.takeWhile Char.isDigit
        let erest := esignAndRest.2.dropWhile Char.isDigit
        if eds.isEmpty ∨ ¬ erest.isEmpty then none
        else
          let ex := digitsToNat eds
          if esignAndRest.1 then some (mkRat sm (10 ^ fl * 10 ^ ex))
          else some (mkRat (sm * 10 ^ ex) (10 ^ fl))
      else none

/-- A character matched by the regex class `[\d,]`. -/
def isNumChar (c : Char) : Bool := c.isDigit || c = ','

/-- Model of `re.search(r'[\d,]+\.?\d*', s)`: the leftmost match of one or
more digits/commas, an optional dot, and further digits (greedy; this
pattern never backtracks). -/
def findNumericMatch (s : String) : Option String :=
  go s.toList
where
  go : List Char → Option String
  | [] => none
  | c :: t =>
    if isNumChar c then
      let run := (c :: t).takeWhile isNumChar
      let tail1 := (c :: t).dropWhile isNumChar
      let ext : List Char :=
        match tail1 with
        | '.' :: u => '.' :: u.takeWhile Char.isDigit
        | _ => []
      some (String.mk (run ++ ext))
    else go t

/-- Fractional decimal digits of `r / d` (long division), up to `fuel`
digits; the rationals arising in this pipeline come from decimal numerals,
so the expansion terminates well within the fuel. -/
def fracDigitsAux : Nat → Nat → Nat → List Char
  | 0, _, _ => []
  | _, 0, _ => []
  | fuel + 1, r, d =>
    let r10 := r * 10
    Char.ofNat (48 + r10 / d) :: fracDigitsAux fuel (r10 % d) d

/-- Model of Python `str(v)` on the floats arising in this pipeline:
integer part, a dot, and the fractional digits with trailing zeros removed
(at least one fractional digit, so `str(50000.0) = "50000.0"`). -/
def floatRepr (q : Rat) : String :=
  let sign := if q < 0 then "-" else ""
  let n := q.num.natAbs
  let d := q.den
  let ds := fracDigitsAux 17 (n % d) d
  let ds1 := (ds.reverse.dropWhile (fun c => c = '0')).reverse
  let frac := if ds1.isEmpty then "0" else String.mk ds1
  sign ++ toString (n / d) ++ "." ++ frac

/-- `str(v)` on a scalar. -/
def pyStr : Scalar → String
  | .num q => floatRepr q
  | .str s => s

/-- Cents of `q` under round-half-to-even (the rounding used by Python's
fixed-point float formatting), computed on the numerator and denominator:
`q * 100 = n / d`, floor `fl` with remainder `r`, and `r / d` compared
against one half. -/
def round2 (q : Rat) : Int :=
  let n := q.num * 100
  let d := (q.den : Int)
  let fl := n.fdiv d
  let r := n.fmod d
  if 2 * r < d then fl
  else if d < 2 * r then fl + 1
  else if fl % 2 = 0 then fl else fl + 1

/-- Insert thousands separators into a reversed digit list. -/
def group3Aux : List Char → List Char
  | a :: b :: c :: d :: rest => a :: b :: c :: ',' :: group3Aux (d :: rest)
  | l => l

/-- Decimal rendering of a natural number with thousands separators. -/
def groupedNat (n : Nat) : String :=
  String.mk ((group3Aux (toString n).toList.reverse).reverse)

/-- Two-digit rendering of `n < 100`. -/
def twoDigits (n : Nat) : String :=
  if n < 10 then "0" ++ toString n else toString n

/-- Model of the f-string `f"${value:,.2f}"` used for the `content` of
fallback-extracted fields in `document_analysis.py`. -/
def formatCurrency2 (q : Rat) : String :=
  let c := round2 q
  let sign := if c < 0 then "-" else ""
  let a := c.natAbs
  "$" ++ sign ++ groupedNat (a / 100) ++ "." ++ twoDigits (a % 100)

/-! ## Insertion-ordered dictionaries -/

/-- CPython dict assignment `m[k] = v` on an insertion-ordered association
list: if the key is present its value is updated in place, otherwise the
pair is appended. -/
def dupsert [DecidableEq κ] (m : List (κ × α)) (k : κ) (v : α) : List (κ × α) :=
  if m.any (fun p => p.1 = k) then
    m.map (fun p => if p.1 = k then (k, v) else p)
  else m ++ [(k, v)]

/-- Dict lookup `m.get(k)` / `m[k]`. -/
def lookupKey [DecidableEq κ] (m : List (κ × α)) (k : κ) : Option α :=
  match m with
  | [] => none
  | p :: rest => if p.1 = k then some p.2 else lookupKey rest k

/-- The keys of a dict, in insertion order. -/
def keysOf (m : List (κ × α)) : List κ := m.map Prod.fst

/-! ## Data model

The adapted (output-side) schema produced by the Result Adapter, as built
by `_process_azure_result` in both modules. -/

/-- An adapted table cell (`cell_data` dict). -/
structure CellData where
  kind : String
  rowIndex : Nat
  columnIndex : Nat
  content : String
deriving DecidableEq

/-- An adapted table (`table_data` dict). -/
structure TableData where
  rowCount : Nat
  columnCount : Nat
  cells : List CellData
deriving DecidableEq

/-- An adapted page (`page_data` dict); `document_analysis.py` always sets
`words` and `lines` to empty lists. -/
structure PageData where
  pageNumber : Nat
  angle : Rat
  width : Rat
  height : Rat
  unit : String
  words : List String
  lines : List String
deriving DecidableEq

/-- An adapted key-value pair (`kvp_data` dict, keeping the `content` of
`key` and `value`). -/
structure KVPData where
  keyContent : String
  valueContent : String
  confidence : Rat
deriving DecidableEq

/-- An extracted field as built by `document_analysis.py` (five keys:
type, value, valueString, confidence, content). -/
structure ExtractedField where
  type : String
  value : Scalar
  valueString : String
  confidence : Rat
  content : String
deriving DecidableEq

/-- An extracted field as built by `document_analysis_complete.py` (four
keys: type, value, valueString, confidence). -/
structure FieldDataC where
  type : String
  value : Scalar
  valueString : String
  confidence : Rat
deriving DecidableEq

/-- A document of the adapted result (`document_data` dict). -/
structure DocumentData where
  docType : String
  fields : List (String × ExtractedField)
  confidence : Rat
deriving DecidableEq

/-- The `analyzeResult` dict: all four sequences are always present. -/
structure AnalyzeResult where
  apiVersion : String
  modelId : String
  stringIndexType : String
  content : String
  pages : List PageData
  tables : List TableData
  keyValuePairs : List KVPData
  documents : List DocumentData
deriving DecidableEq

/-- The wrapper returned by `_process_azure_result`. -/
structure ProcessedResult where
  status : String
  createdDateTime : String
  lastUpdatedDateTime : String
  analyzeResult : AnalyzeResult
deriving DecidableEq

/-! ## Raw upstream input

The Azure SDK result object consumed by `_process_azure_result` in
`document_analysis.py`; attributes read under `hasattr` guards are
`Option`s (absent attribute = `none`). -/

/-- A raw table cell. -/
structure RawCell where
  kind : Option String
  row_index : Option Nat
  column_index : Option Nat
  content : Option String
deriving DecidableEq

/-- A raw table. -/
structure RawTable where
  row_count : Option Nat
  column_count : Option Nat
  cells : Option (List RawCell)
deriving DecidableEq

/-- A raw page; the word list is never read by `document_analysis.py` but
may be absent, which must not matter. -/
structure RawPage where
  page_number : Option Nat
  angle : Option Rat
  width : Option Rat
  height : Option Rat
  unit : Option String
  words : Option (List String)
deriving DecidableEq

/-- A raw key-value pair; `keyContent`/`valueContent` model
`kvp.key.content` / `kvp.value.content` (absent when the `content`
attribute is missing). -/
structure RawKVP where
  keyContent : Option String
  valueContent : Option String
  confidence : Option Rat
deriving DecidableEq

/-- A raw recognized field of a document. -/
structure RawField where
  value_type : Option String
  value : Option Scalar
  confidence : Option Rat
  content : Option String
deriving DecidableEq

/-- A raw recognized document: its `fields` mapping (an insertion-ordered
dict), absent when the attribute is missing. -/
structure RawDocument where
  fields : Option (List (String × RawField))
deriving DecidableEq

/-- The raw analysis result object. -/
structure RawResult where
  api_version : Option String
  model_id : Option String
  content : Option String
  pages : Option (List RawPage)
  tables : Option (List RawTable)
  key_value_pairs : Option (List RawKVP)
  documents : Option (List RawDocument)
deriving DecidableEq

/-! ## `document_analysis.py` (the active module, registered in `main.py`) -/

namespace DocumentAnalysis

/-- Cell adaptation inside the table loop of `_process_azure_result`
(lines 164-173): every attribute is read under a `hasattr` guard with the
shown default. -/
def adaptCell (c : RawCell) : CellData :=
  { kind := c.kind.getD "content"
    rowIndex := c.row_index.getD 0
    columnIndex := c.column_index.getD 0
    content := c.content.getD "" }

/-- Table adaptation (lines 155-175). -/
def adaptTable (t : RawTable) : TableData :=
  { rowCount := t.row_count.getD 0
    columnCount := t.column_count.getD 0
    cells := (t.cells.getD []).map adaptCell }

/-- Page adaptation (lines 141-152); `words`/`lines` are always set to the
empty list and the raw word list is never read. -/
def adaptPage (p : RawPage) : PageData :=
  { pageNumber := p.page_number.getD 1
    angle := p.angle.getD 0
    width := p.width.getD (mkRat 17 2)
    height := p.height.getD 11
    unit := p.unit.getD "inch"
    words := []
    lines := [] }

/-- Key-value pair adaptation (lines 178-185). -/
def adaptKVP (k : RawKVP) : KVPData :=
  { keyContent := k.keyContent.getD ""
    valueContent := k.valueContent.getD ""
    confidence := k.confidence.getD (mkRat 1 2) }

/-- The keyword filter of the document-field loop (lines 194-196): a field
is kept iff its lower-cased name contains a P&L keyword or a period/date
keyword. -/
def keywordMatch (name : String) : Bool :=
  let ln := lowerStr name
  (["revenue", "income", "expense", "cost", "profit", "loss"].any
      (fun kw => containsSub ln kw)) ||
  (["period", "date", "reporting"].any (fun kw => containsSub ln kw))

/-- The field dict built for a kept document field (lines 197-203); note
that `type` is passed through from the upstream `value_type` unchanged. -/
def mkDocField (f : RawField) : ExtractedField :=
  { type := f.value_type.getD "string"
    value :=
      match f.value with
      | some v => v
      | none => .str (f.content.getD "")
    valueString :=
      match f.value with
      | some v => pyStr v
      | none => f.content.getD ""
    confidence := f.confidence.getD (mkRat 1 2)
    content :=
      match f.content with
      | some c => c
      | none =>
        match f.value with
        | some v => pyStr v
        | none => "" }

/-- The document-field extraction loop (lines 188-203): fields of all
upstream documents are merged into one dict, keeping only keyword-matching
field names, under their original names. -/
def extractDocFields (docs : List RawDocument) : List (String × ExtractedField) :=
  docs.foldl
    (fun acc doc =>
      match doc.fields with
      | none => acc
      | some fs =>
        if fs.isEmpty then acc
        else
          fs.foldl
            (fun a nf =>
              if keywordMatch nf.1 then dupsert a nf.1 (mkDocField nf.2) else a)
            acc)
    []

/-- `pnl_patterns` (lines 240-246), in dict insertion order. -/
def pnl_patterns : List (String × List String) :=
  [("pnl_total_revenue", ["total revenue", "revenue", "sales", "total income", "income"]),
   ("pnl_cost_of_goods_sold", ["cost of goods sold", "cogs", "cost of sales"]),
   ("pnl_gross_profit", ["gross profit", "gross income"]),
   ("pnl_operating_expenses", ["operating expenses", "expenses", "total expenses"]),
   ("pnl_net_income", ["net income", "net profit", "profit", "net earnings"])]

/-- The cell-text coercion shared by both modules (spec 4.3 step 3):
`content.replace("$", "").replace(",", "").strip()` then `float(...)`,
`none` on `ValueError`. -/
def coerceCellText (s : String) : Option Rat :=
  parseFloat (stripStr (removeChar (removeChar s '$') ','))

/-- `_find_adjacent_value` (lines 277-295): scan the cell list in order;
the first cell in the same row and a different column whose content
coerces wins; `0.0` is returned when none does. -/
def favGo (targetRow targetCol : Nat) : List CellData → Rat
  | [] => 0
  | c :: rest =>
    if c.rowIndex = targetRow ∧ c.columnIndex ≠ targetCol then
      match coerceCellText c.content with
      | some v => v
      | none => favGo targetRow targetCol rest
    else favGo targetRow targetCol rest

/-- `_find_adjacent_value` entry point. -/
def find_adjacent_value (table : TableData) (target : CellData) : Rat :=
  favGo target.rowIndex target.columnIndex table.cells

/-- The field dict recorded by `_extract_pnl_from_content` (lines 260-266). -/
def mkContentField (v : Rat) : ExtractedField :=
  { type := "currency"
    value := .num v
    valueString := floatRepr v
    confidence := mkRat 7 10
    content := formatCurrency2 v }

/-- The inner pattern loop of `_extract_pnl_from_content` (lines 255-267):
on a substring hit the adjacent value is computed and recorded only when
it is truthy (`if value:` — a coerced `0.0` is skipped and the next
pattern is tried). -/
def tryPatterns (table : TableData) (cell : CellData) (content : String)
    (fieldKey : String) (acc : List (String × ExtractedField)) :
    List String → List (String × ExtractedField)
  | [] => acc
  | p :: ps =>
    if containsSub content p then
      let v := find_adjacent_value table cell
      if v ≠ 0 then dupsert acc fieldKey (mkContentField v)
      else tryPatterns table cell content fieldKey acc ps
    else tryPatterns table cell content fieldKey acc ps

/-- `_extract_pnl_from_content` (lines 233-274): scan every cell of every
table; each cell is matched against every pattern group, assigning into
the shared dict (later hits overwrite earlier ones). -/
def extract_pnl_from_content (ar : AnalyzeResult) : List (String × ExtractedField) :=
  ar.tables.foldl
    (fun acc table =>
      table.cells.foldl
        (fun acc2 cell =>
          let content := lowerStr cell.content
          pnl_patterns.foldl
            (fun acc3 kp => tryPatterns table cell content kp.1 acc3 kp.2)
            acc2)
        acc)
    []

/-- The Result Adapter portion of `_process_azure_result` (lines 129-185):
the four sequences are always present, absent attributes map to empty
defaults, `documents` is filled later.  The source guards the loops with
`hasattr(...) and <truthy>`; mapping over the empty default is
extensionally the same. -/
def adaptAR (r : RawResult) : AnalyzeResult :=
  { apiVersion := r.api_version.getD "2024-11-30"
    modelId := r.model_id.getD "prebuilt-layout"
    stringIndexType := "utf16CodeUnit"
    content := r.content.getD ""
    pages := (r.pages.getD []).map adaptPage
    tables := (r.tables.getD []).map adaptTable
    keyValuePairs := (r.key_value_pairs.getD []).map adaptKVP
    documents := [] }

/-- Lines 187-208: the merged document fields, falling back to table
extraction when the keyword filter kept nothing. -/
def extractedFields (r : RawResult) : List (String × ExtractedField) :=
  let ef := extractDocFields (r.documents.getD [])
  if ef.isEmpty then extract_pnl_from_content (adaptAR r) else ef

/-- `_process_azure_result` (lines 121-226).  The `clock` argument models
the ambient wall-clock time available to the code; the source never reads
it (both wrapper timestamps are string literals). -/
def process_azure_result (r : RawResult) (clock : String) : ProcessedResult :=
  let ar := adaptAR r
  { status := "succeeded"
    createdDateTime := "2025-01-10T21:00:00Z"
    lastUpdatedDateTime := "2025-01-10T21:00:05Z"
    analyzeResult :=
      { ar with
        documents :=
          [{ docType := "PNL"
             fields := extractedFields r
             confidence := mkRat 17 20 }] } }

end DocumentAnalysis

/-! ## `document_analysis_complete.py` (the dormant duplicate module) -/

namespace DocumentAnalysisComplete

/-- `pnl_field_mapping` (lines 197-226), in dict insertion order. -/
def pnl_field_mapping : List (String × String) :=
  [("TotalRevenue", "pnl_total_revenue"),
   ("Revenue", "pnl_total_revenue"),
   ("Sales", "pnl_total_revenue"),
   ("GrossRevenue", "pnl_total_revenue"),
   ("TotalSales", "pnl_total_revenue"),
   ("CostOfGoodsSold", "pnl_cost_of_goods_sold"),
   ("COGS", "pnl_cost_of_goods_sold"),
   ("CostOfSales", "pnl_cost_of_goods_sold"),
   ("GrossProfit", "pnl_gross_profit"),
   ("GrossIncome", "pnl_gross_profit"),
   ("OperatingExpenses", "pnl_operating_expenses"),
   ("OpEx", "pnl_operating_expenses"),
   ("TotalExpenses", "pnl_operating_expenses"),
   ("NetIncome", "pnl_net_income"),
   ("NetProfit", "pnl_net_income"),
   ("NetEarnings", "pnl_net_income"),
   ("ProfitLoss", "pnl_net_income"),
   ("OtherIncome", "pnl_other_income"),
   ("OtherRevenue", "pnl_other_income"),
   ("OtherExpenses", "pnl_other_expenses"),
   ("OtherCosts", "pnl_other_expenses")]

/-- The closed canonical vocabulary of the spec's data model. -/
def canonicalNames : List String :=
  ["pnl_total_revenue", "pnl_cost_of_goods_sold", "pnl_gross_profit",
   "pnl_operating_expenses", "pnl_net_income", "pnl_other_income",
   "pnl_other_expenses"]

/-- `pnl_field_mapping.get(field_name, field_name.lower())` (line 232). -/
def mapFieldName (name : String) : String :=
  (lookupKey pnl_field_mapping name).getD (lowerStr name)

/-- A raw field as read by the complete module's field loop: `content` and
`confidence` are accessed unguarded (always present on the SDK object);
`value_number` is used when present and not `None`, `value_string` when
present and truthy (non-empty). -/
structure RawFieldC where
  content : String
  value_number : Option Rat
  value_string : Option String
  confidence : Rat
deriving DecidableEq

/-- The numeric-coercion chain of lines 235-245: the native number wins;
otherwise the first `[\d,]+\.?\d*` match of the comma-stripped value
string is parsed; on no match or parse failure the raw `content` string is
kept. -/
def coerceFieldValue (f : RawFieldC) : Scalar :=
  match f.value_number with
  | some n => .num n
  | none =>
    match f.value_string with
    | some s =>
      if s = "" then .str f.content
      else
        match findNumericMatch (removeChar s ',') with
        | some m =>
          match parseFloat m with
          | some v => .num v
          | none => .str f.content
        | none => .str f.content
    | none => .str f.content

/-- One step of the field loop (lines 228-252): map the vendor name, coerce
the value, and build the field dict; `type` is `"currency"` exactly when
the coerced value is numeric. -/
def mapFieldC (name : String) (f : RawFieldC) : String × FieldDataC :=
  let v := coerceFieldValue f
  (mapFieldName name,
   { type := if isNum v then "currency" else "string"
     value := v
     valueString := f.content
     confidence := f.confidence })

/-- The whole field loop over a document's `fields` dict. -/
def processDocFieldsC (fs : List (String × RawFieldC)) : List (String × FieldDataC) :=
  fs.foldl
    (fun acc nf =>
      let kd := mapFieldC nf.1 nf.2
      dupsert acc kd.1 kd.2)
    []

/-- The step of the field loop, named for the fold lemmas below. -/
def foldStep (acc : List (String × FieldDataC)) (nf : String × RawFieldC) :
    List (String × FieldDataC) :=
  let kd := mapFieldC nf.1 nf.2
  dupsert acc kd.1 kd.2

/-- The `table_data` reconstruction of `_extract_pnl_from_tables`
(lines 290-298): group cell contents by row index, then by column index,
with dict-assignment semantics. -/
def buildTableData (cells : List CellData) : List (Nat × List (Nat × String)) :=
  cells.foldl
    (fun td c =>
      let row := (lookupKey td c.rowIndex).getD []
      dupsert td c.rowIndex (dupsert row c.columnIndex (stripStr c.content)))
    []

/-- The keyword classification chain of lines 317-346, in `elif` order. -/
def classifyRow (label : String) : Option String :=
  if (["revenue", "sales", "income"].any (fun t => containsSub label t)) ∧
      ¬ containsSub label "net" then some "pnl_total_revenue"
  else if ["cost of goods", "cogs", "cost of sales"].any
      (fun t => containsSub label t) then some "pnl_cost_of_goods_sold"
  else if containsSub label "gross profit" then some "pnl_gross_profit"
  else if ["operating expense", "total expense"].any
      (fun t => containsSub label t) then some "pnl_operating_expenses"
  else if ["net income", "net profit", "net earnings"].any
      (fun t => containsSub label t) then some "pnl_net_income"
  else none

/-- The per-column attempt of the value scan (lines 307-314): columns
beyond column 0 whose stripped text is non-empty are coerced with the
cell-text coercion. -/
def colValue (rowData : List (Nat × String)) (c : Nat) : Option Rat :=
  let s := (lookupKey rowData c).getD ""
  if 0 < c ∧ stripStr s ≠ "" then DocumentAnalysis.coerceCellText s
  else none

/-- `sorted(row_data.keys(), reverse=True)`. -/
def sortDesc (l : List Nat) : List Nat :=
  l.insertionSort (fun a b => b ≤ a)

instance : IsTotal Nat (fun a b => b ≤ a) := ⟨fun a b => Nat.le_total b a⟩

instance : IsTrans Nat (fun a b => b ≤ a) := ⟨fun _ _ _ h1 h2 => Nat.le_trans h2 h1⟩

/-- The value scan of lines 305-314: columns in descending index order,
first successful coercion wins. -/
def rowValue (rowData : List (Nat × String)) : Option Rat :=
  (sortDesc (keysOf rowData)).findSome? (colValue rowData)

/-- The field dict recorded for a classified row (lines 319-352). -/
def mkTableField (v : Rat) : FieldDataC :=
  { type := "currency"
    value := .num v
    valueString := floatRepr v
    confidence := mkRat 4 5 }

/-- Processing of one logical row (lines 301-352): a row needs a label in
column 0 and a scanned value; classified rows assign into the shared
fields dict. -/
def processRow (fields : List (String × FieldDataC)) (rowData : List (Nat × String)) :
    List (String × FieldDataC) :=
  match lookupKey rowData 0 with
  | none => fields
  | some label0 =>
    let label := lowerStr label0
    match rowValue rowData with
    | none => fields
    | some v =>
      match classifyRow label with
      | some k => dupsert fields k (mkTableField v)
      | none => fields

/-- `_extract_pnl_from_tables` (lines 278-357): one shared fields dict
across all tables; tables without cells are skipped. -/
def extract_pnl_from_tables (tables : List TableData) : List (String × FieldDataC) :=
  tables.foldl
    (fun fields table =>
      if table.cells.isEmpty then fields
      else (buildTableData table.cells).foldl
        (fun fs rd => processRow fs rd.2) fields)
    []

end DocumentAnalysisComplete

/-! ## Concrete inputs used by the claim theorems -/

/-- A raw content cell at `(r, c)`. -/
def mkRawCell (r c : Nat) (s : String) : RawCell :=
  { kind := some "content", row_index := some r, column_index := some c,
    content := some s }

/-- The table of spec scenario 8.6: rows `("Revenue", "$50,000")` and
`("Net Income", "$10,000")`. -/
def c1Table : RawTable :=
  { row_count := some 2, column_count := some 2,
    cells := some [mkRawCell 0 0 "Revenue", mkRawCell 0 1 "$50,000",
                   mkRawCell 1 0 "Net Income", mkRawCell 1 1 "$10,000"] }

/-- Scenario 8.6 input: empty documents, one table. -/
def c1Input : RawResult :=
  { api_version := none, model_id := none, content := some "",
    pages := some [], tables := some [c1Table], key_value_pairs := none,
    documents := some [] }

/-- A one-row table `("Revenue", "$0.00")`. -/
def czTable : RawTable :=
  { row_count := some 1, column_count := some 2,
    cells := some [mkRawCell 0 0 "Revenue", mkRawCell 0 1 "$0.00"] }

/-- Input with the `("Revenue", "$0.00")` table and no documents. -/
def czInput : RawResult :=
  { api_version := none, model_id := none, content := none,
    pages := none, tables := some [czTable], key_value_pairs := none,
    documents := none }

/-- An adapted table with rows `("Revenue", "$100")` and `("Sales", "$200")`,
both classifying to `pnl_total_revenue`. -/
def rsTable : TableData :=
  { rowCount := 2, columnCount := 2,
    cells := [⟨"content", 0, 0, "Revenue"⟩, ⟨"content", 0, 1, "$100"⟩,
              ⟨"content", 1, 0, "Sales"⟩, ⟨"content", 1, 1, "$200"⟩] }

/-- An adapted table whose row has two coercible value cells, `100` in
column 1 and `200` in column 2. -/
def c7Table : TableData :=
  { rowCount := 1, columnCount := 3,
    cells := [⟨"content", 0, 0, "Revenue"⟩, ⟨"content", 0, 1, "100"⟩,
              ⟨"content", 0, 2, "200"⟩] }

/-- A raw document whose field `Revenue` carries upstream type `currency`
but only the non-numeric content `"abc"`. -/
def c4Doc : RawDocument :=
  { fields := some [("Revenue",
      { value_type := some "currency", value := none,
        confidence := some (mkRat 9 10), content := some "abc" })] }

/-- Input carrying only `c4Doc`. -/
def c4Input : RawResult :=
  { api_version := none, model_id := none, content := none,
    pages := none, tables := none, key_value_pairs := none,
    documents := some [c4Doc] }

/-- A raw document with a non-keyword field `Foo` and a keyword field
`Revenue`. -/
def c8Doc : RawDocument :=
  { fields := some
      [("Foo", { value_type := some "string", value := some (.str "5"),
                 confidence := some 1, content := some "5" }),
       ("Revenue", { value_type := some "currency", value := some (.num 5000),
                     confidence := some (mkRat 9 10), content := some "$5,000" })] }

/-- Input carrying only `c8Doc` and an empty table list. -/
def c8Input : RawResult :=
  { api_version := none, model_id := none, content := none,
    pages := none, tables := some [], key_value_pairs := none,
    documents := some [c8Doc] }

/-- A logical row with label "Revenue" and value cells at columns 1-3, of
which column 2 ("100") is the greatest coercible column. -/
def c7Row : List (Nat × String) := [(0, "Revenue"), (1, "abc"), (2, "100"), (3, "xyz")]

/-- The raw result with every optional attribute absent. -/
def rawNone : RawResult :=
  { api_version := none, model_id := none, content := none,
    pages := none, tables := none, key_value_pairs := none, documents := none }

/-! ## Helper lemmas about dict operations -/

theorem lookupKey_map_upd [DecidableEq κ] (m : List (κ × α)) (k : κ) (v : α)
    (h : m.any (fun p => p.1 = k)) :
    lookupKey (m.map (fun p => if p.1 = k then (k, v) else p)) k = some v := by
  induction m with
  | nil => simp at h
  | cons p rest ih =>
    by_cases hp : p.1 = k
    · simp [lookupKey, hp]
    · have h2 : rest.any (fun p => p.1 = k) := by
        simp only [List.any_cons] at h
        rcases Bool.or_eq_true_iff.mp h with h1 | h1
        · exact absurd (of_decide_eq_true h1) hp
        · exact h1
      simpa [lookupKey, hp] using ih h2

theorem lookupKey_append_right [DecidableEq κ] (m l : List (κ × α)) (k : κ)
    (h : ¬ m.any (fun p => p.1 = k)) :
    lookupKey (m ++ l) k = lookupKey l k := by
  induction m with
  | nil => rfl
  | cons p rest ih =>
    simp only [List.any_cons, Bool.or_eq_true_iff, not_or] at h
    have hp : ¬ p.1 = k := fun hh => h.1 (decide_eq_true hh)
    have := ih (by simpa using h.2)
    simpa [lookupKey, hp] using this

/-- Looking up the just-assigned key returns the just-assigned value. -/
theorem lookupKey_dupsert_self [DecidableEq κ] (m : List (κ × α)) (k : κ) (v : α) :
    lookupKey (dupsert m k v) k = some v := by
  unfold dupsert
  split
  · exact lookupKey_map_upd m k v (by assumption)
  · rw [lookupKey_append_right m _ k (by assumption)]
    simp [lookupKey]

/-- A member of a dict after assignment was either there before or is the
assigned pair. -/
theorem mem_dupsert [DecidableEq κ] {m : List (κ × α)} {k : κ} {v : α} {p : κ × α}
    (h : p ∈ dupsert m k v) : p ∈ m ∨ p = (k, v) := by
  unfold dupsert at h
  split at h
  · obtain ⟨q, hq, hg⟩ := List.mem_map.mp h
    by_cases hqk : q.1 = k
    · right
      rw [if_pos hqk] at hg
      exact hg.symm
    · left
      rw [if_neg hqk] at hg
      exact hg ▸ hq
  · rcases List.mem_append.mp h with h1 | h1
    · exact Or.inl h1
    · exact Or.inr (List.mem_singleton.mp h1)

theorem keysOf_map_upd [DecidableEq κ] (m : List (κ × α)) (k : κ) (v : α) :
    keysOf (m.map (fun p => if p.1 = k then (k, v) else p)) = keysOf m := by
  induction m with
  | nil => rfl
  | cons p rest ih =>
    by_cases hp : p.1 = k
    · simp only [keysOf, List.map_cons] at *
      rw [if_pos hp, ih]
      simp [hp]
    · simp only [keysOf, List.map_cons] at *
      rw [if_neg hp, ih]

theorem keysOf_append (m l : List (κ × α)) :
    keysOf (m ++ l) = keysOf m ++ keysOf l := by
  simp [keysOf]

/-- The keys of a dict after assignment. -/
theorem keysOf_dupsert [DecidableEq κ] (m : List (κ × α)) (k : κ) (v : α) :
    keysOf (dupsert m k v) =
      if m.any (fun p => p.1 = k) then keysOf m else keysOf m ++ [k] := by
  unfold dupsert
  split
  · exact keysOf_map_upd m k v
  · rw [keysOf_append]
    rfl

theorem any_key_iff [DecidableEq κ] (m : List (κ × α)) (k : κ) :
    m.any (fun p => p.1 = k) = true ↔ k ∈ keysOf m := by
  constructor
  · intro h
    obtain ⟨p, hp, he⟩ := List.any_eq_true.mp h
    exact (of_decide_eq_true he) ▸ List.mem_map_of_mem Prod.fst hp
  · intro h
    obtain ⟨p, hp, he⟩ := List.mem_map.mp h
    exact List.any_eq_true.mpr ⟨p, hp, decide_eq_true he⟩

/-- Assignment puts the key among the keys. -/
theorem mem_keysOf_dupsert_self [DecidableEq κ] (m : List (κ × α)) (k : κ) (v : α) :
    k ∈ keysOf (dupsert m k v) := by
  rw [keysOf_dupsert]
  split
  · exact (any_key_iff m k).mp (by assumption)
  · simp

/-- Assignment preserves existing keys. -/
theorem mem_keysOf_dupsert_of_mem [DecidableEq κ] {m : List (κ × α)} {x : κ}
    (k : κ) (v : α) (h : x ∈ keysOf m) : x ∈ keysOf (dupsert m k v) := by
  rw [keysOf_dupsert]
  split
  · exact h
  · exact List.mem_append_left _ h

/-- Assignment preserves key uniqueness. -/
theorem nodup_keysOf_dupsert [DecidableEq κ] {m : List (κ × α)} (k : κ) (v : α)
    (h : (keysOf m).Nodup) : (keysOf (dupsert m k v)).Nodup := by
  rw [keysOf_dupsert]
  split
  · exact h
  · rename_i hna
    rw [List.nodup_append]
    refine ⟨h, List.nodup_singleton k, ?_⟩
    intro x hx hk
    rw [List.mem_singleton] at hk
    subst hk
    exact hna ((any_key_iff m x).mpr hx)

/-- A dict lookup hit is a membership witness. -/
theorem lookupKey_mem [DecidableEq κ] {m : List (κ × α)} {k : κ} {v : α}
    (h : lookupKey m k = some v) : (k, v) ∈ m := by
  induction m with
  | nil => simp [lookupKey] at h
  | cons p rest ih =>
    by_cases hp : p.1 = k
    · rw [lookupKey, if_pos hp] at h
      have : (k, v) = p := by
        obtain ⟨p1, p2⟩ := p
        simp at hp h
        simp [hp, h]
      exact this ▸ List.mem_cons_self p rest
    · rw [lookupKey, if_neg hp] at h
      exact List.mem_cons_of_mem p (ih h)

/-! ## Fold invariants for the complete module's field loop -/

namespace DocumentAnalysisComplete

theorem processDocFieldsC_eq_foldl (fs : List (String × RawFieldC)) :
    processDocFieldsC fs = fs.foldl foldStep [] := rfl

theorem foldl_foldStep_nodup (fs : List (String × RawFieldC))
    (acc : List (String × FieldDataC)) (h : (keysOf acc).Nodup) :
    (keysOf (fs.foldl foldStep acc)).Nodup := by
  induction fs generalizing acc with
  | nil => exact h
  | cons nf rest ih =>
    exact ih _ (nodup_keysOf_dupsert _ _ h)

theorem foldl_foldStep_mem (fs : List (String × RawFieldC))
    (acc : List (String × FieldDataC)) (x : String)
    (h : x ∈ keysOf acc ∨ ∃ nf ∈ fs, mapFieldName nf.1 = x) :
    x ∈ keysOf (fs.foldl foldStep acc) := by
  induction fs generalizing acc with
  | nil =>
    rcases h with h | ⟨nf, hnf, _⟩
    · exact h
    · cases hnf
  | cons nf rest ih =>
    rcases h with h | ⟨mf, hmf, hx⟩
    · exact ih _ (Or.inl (mem_keysOf_dupsert_of_mem _ _ h))
    · rcases List.mem_cons.mp hmf with rfl | hmem
      · refine ih _ (Or.inl ?_)
        rw [← hx]
        exact mem_keysOf_dupsert_self _ _ _
      · exact ih _ (Or.inr ⟨mf, hmem, hx⟩)

/-! ## Value-shape invariant of the table extractor -/

theorem processRow_mem {m : List (String × FieldDataC)} {rd : List (Nat × String)}
    {p : String × FieldDataC} (h : p ∈ processRow m rd) :
    p ∈ m ∨ (p.2.type = "currency" ∧ isNum p.2.value = true) := by
  rcases h0 : lookupKey rd 0 with _ | label0
  · exact Or.inl (by simpa only [processRow, h0] using h)
  · rcases hv : rowValue rd with _ | v
    · exact Or.inl (by simpa only [processRow, h0, hv] using h)
    · rcases hk : classifyRow (lowerStr label0) with _ | k
      · exact Or.inl (by simpa only [processRow, h0, hv, hk] using h)
      · have h2 : p ∈ dupsert m k (mkTableField v) := by
          simpa only [processRow, h0, hv, hk] using h
        rcases mem_dupsert h2 with h1 | h1
        · exact Or.inl h1
        · right
          rw [h1]
          exact ⟨rfl, rfl⟩

theorem foldl_processRow_mem {rows : List (Nat × List (Nat × String))}
    {m : List (String × FieldDataC)} {p : String × FieldDataC}
    (h : p ∈ rows.foldl (fun fs rd => processRow fs rd.2) m) :
    p ∈ m ∨ (p.2.type = "currency" ∧ isNum p.2.value = true) := by
  induction rows generalizing m with
  | nil => exact Or.inl h
  | cons rd rest ih =>
    rcases ih h with h1 | h1
    · exact processRow_mem h1
    · exact Or.inr h1

theorem extract_pnl_from_tables_mem {tables : List TableData}
    {p : String × FieldDataC} (h : p ∈ extract_pnl_from_tables tables) :
    p.2.type = "currency" ∧ isNum p.2.value = true := by
  unfold extract_pnl_from_tables at h
  have main : ∀ (ts : List TableData) (m : List (String × FieldDataC)),
      p ∈ ts.foldl (fun fields table =>
        if table.cells.isEmpty then fields
        else (buildTableData table.cells).foldl
          (fun fs rd => processRow fs rd.2) fields) m →
      p ∈ m ∨ (p.2.type = "currency" ∧ isNum p.2.value = true) := by
    intro ts
    induction ts with
    | nil => exact fun m hm => Or.inl hm
    | cons t rest ih =>
      intro m hm
      rcases ih _ hm with h1 | h1
      · dsimp only at h1
        split at h1
        · exact Or.inl h1
        · exact foldl_processRow_mem h1
      · exact Or.inr h1
  rcases main tables [] h with h1 | h1
  · cases h1
  · exact h1

/-! ## The descending scan takes the greatest successful column -/

theorem findSome_sorted_max {f : Nat → Option Rat} {l : List Nat} {c : Nat} {v : Rat}
    (hs : List.Pairwise (fun a b => b ≤ a) l) (hnd : l.Nodup) (hc : c ∈ l)
    (hv : f c = some v) (hfail : ∀ x ∈ l, c < x → f x = none) :
    l.findSome? f = some v := by
  induction l with
  | nil => cases hc
  | cons a t ih =>
    rcases List.mem_cons.mp hc with rfl | hct
    · simp [List.findSome?, hv]
    · have hat : c ≤ a := (List.pairwise_cons.mp hs).1 c hct
      have hne : a ≠ c := fun h => (List.nodup_cons.mp hnd).1 (h ▸ hct)
      have hfa : f a = none :=
        hfail a (List.mem_cons_self a t) (Nat.lt_of_le_of_ne hat (fun h => hne h.symm))
      have := ih (List.pairwise_cons.mp hs).2 (List.nodup_cons.mp hnd).2 hct
        (fun x hx hcx => hfail x (List.mem_cons_of_mem a hx) hcx)
      simpa [List.findSome?, hfa] using this

end DocumentAnalysisComplete

/-! ## Claim theorems -/

/-- C1 (counterexample): on the scenario input (empty documents, one table
with rows ("Revenue","$50,000") and ("Net Income","$10,000")) the active
pipeline records `pnl_total_revenue` as 10000, not the claimed 50000: the
later "Net Income" row also matches the `income` keyword of the revenue
pattern group and overwrites the earlier 50000. -/
theorem c1_scenario_counterexample :
    ((DocumentAnalysis.process_azure_result c1Input "now").analyzeResult.documents.map
        (fun d => lookupKey d.fields "pnl_total_revenue")) =
      [some (DocumentAnalysis.mkContentField 10000)] ∧
    (DocumentAnalysis.mkContentField 10000).value ≠ Scalar.num 50000 := by
  exact ⟨rfl, by decide⟩

/-- C1 (amended): on the scenario input the active pipeline outputs exactly
one synthetic document (docType "PNL") whose fields are
`pnl_total_revenue = 10000.0` and `pnl_net_income = 10000.0`; the dormant
complete module's table extractor yields the claimed
`pnl_total_revenue = 50000.0` and `pnl_net_income = 10000.0`. -/
theorem c1_scenario :
    (DocumentAnalysis.process_azure_result c1Input "now").analyzeResult.documents =
      [{ docType := "PNL"
         fields := [("pnl_total_revenue", DocumentAnalysis.mkContentField 10000),
                    ("pnl_net_income", DocumentAnalysis.mkContentField 10000)]
         confidence := mkRat 17 20 }] ∧
    DocumentAnalysisComplete.extract_pnl_from_tables
        ((c1Input.tables.getD []).map DocumentAnalysis.adaptTable) =
      [("pnl_total_revenue", DocumentAnalysisComplete.mkTableField 50000),
       ("pnl_net_income", DocumentAnalysisComplete.mkTableField 10000)] := by
  exact ⟨rfl, rfl⟩

/-- C5: the Result Adapter of the active module is total — for every raw
input (any subset of optional attributes absent) it produces all four
top-level sequences, absent inputs becoming empty sequences, an absent
page word list never being read, and the documents sequence holding
exactly one entry. -/
theorem c5_result_adapter_total (r : RawResult) (clock : String) :
    (r.pages = none →
      (DocumentAnalysis.process_azure_result r clock).analyzeResult.pages = []) ∧
    (r.tables = none →
      (DocumentAnalysis.process_azure_result r clock).analyzeResult.tables = []) ∧
    (r.key_value_pairs = none →
      (DocumentAnalysis.process_azure_result r clock).analyzeResult.keyValuePairs = []) ∧
    (∀ p : RawPage,
      DocumentAnalysis.adaptPage { p with words := none } = DocumentAnalysis.adaptPage p) ∧
    (DocumentAnalysis.process_azure_result r clock).analyzeResult.documents.length = 1 := by
  refine ⟨fun h => ?_, fun h => ?_, fun h => ?_, fun p => rfl, rfl⟩
  · simp [DocumentAnalysis.process_azure_result, DocumentAnalysis.adaptAR, h]
  · simp [DocumentAnalysis.process_azure_result, DocumentAnalysis.adaptAR, h]
  · simp [DocumentAnalysis.process_azure_result, DocumentAnalysis.adaptAR, h]

/-- C5 witness: at the input with every optional attribute absent. -/
theorem c5_witness :
    (DocumentAnalysis.process_azure_result rawNone "now").analyzeResult.pages = [] ∧
    (DocumentAnalysis.process_azure_result rawNone "now").analyzeResult.tables = [] ∧
    (DocumentAnalysis.process_azure_result rawNone "now").analyzeResult.keyValuePairs = [] ∧
    (DocumentAnalysis.process_azure_result rawNone "now").analyzeResult.documents.length = 1 :=
  ⟨(c5_result_adapter_total rawNone "now").1 rfl,
   (c5_result_adapter_total rawNone "now").2.1 rfl,
   (c5_result_adapter_total rawNone "now").2.2.1 rfl,
   (c5_result_adapter_total rawNone "now").2.2.2.2⟩

/-- C6: the numeric-coercion precedence — a native numeric attribute wins
unconditionally; the string "$1,234.50" coerces to 1234.50 both through
the value-string regex path and through the currency cell-text path; and
"abc" produces no numeric value on either path (the field keeps its raw
content on the string path, the cell path reports no value). -/
theorem c6_numeric_coercion :
    (∀ (f : DocumentAnalysisComplete.RawFieldC) (n : Rat),
      f.value_number = some n →
      DocumentAnalysisComplete.coerceFieldValue f = Scalar.num n) ∧
    DocumentAnalysisComplete.coerceFieldValue
      { content := "x", value_number := none, value_string := some "$1,234.50",
        confidence := 1 } = Scalar.num (mkRat 2469 2) ∧
    DocumentAnalysis.coerceCellText "$1,234.50" = some (mkRat 2469 2) ∧
    DocumentAnalysisComplete.coerceFieldValue
      { content := "abc", value_number := none, value_string := some "abc",
        confidence := 1 } = Scalar.str "abc" ∧
    DocumentAnalysis.coerceCellText "abc" = none := by
  refine ⟨fun f n h => ?_, by decide, by decide, by decide, by decide⟩
  unfold DocumentAnalysisComplete.coerceFieldValue
  rw [h]

/-- C6 witness: the native-number precedence at a concrete field carrying
both a native number and a conflicting value string. -/
theorem c6_witness :
    DocumentAnalysisComplete.coerceFieldValue
      { content := "x", value_number := some 7, value_string := some "9",
        confidence := 1 } = Scalar.num 7 :=
  c6_numeric_coercion.1 _ 7 rfl

/-- C9: the active pipeline is a pure function of the raw input — its
output is independent of the ambient clock, so two runs on the same raw
input are identical (even the wrapper timestamps, which are literals). -/
theorem c9_determinism (r : RawResult) (clock1 clock2 : String) :
    DocumentAnalysis.process_azure_result r clock1 =
      DocumentAnalysis.process_azure_result r clock2 := rfl

/-- C10: for every input the active pipeline's output documents sequence is
exactly one synthetic document with docType "PNL" and confidence 0.85,
whose field map is the merge `DocumentAnalysis.extractedFields` of all
upstream documents' recognized fields (with table fallback). -/
theorem c10_exactly_one_document (r : RawResult) (clock : String) :
    (DocumentAnalysis.process_azure_result r clock).analyzeResult.documents =
      [{ docType := "PNL"
         fields := DocumentAnalysis.extractedFields r
         confidence := mkRat 17 20 }] := rfl

/-- C2 (counterexample): in the active module's fallback extractor, a row
("Revenue", "$0.00") — whose value cell coerces to 0.0 — produces no
recorded field at all: `_find_adjacent_value` returns 0.0 and the
truthiness check `if value:` treats it as "value not found". -/
theorem c2_zero_dropped_active :
    (DocumentAnalysis.process_azure_result czInput "now").analyzeResult.documents =
      [{ docType := "PNL", fields := [], confidence := mkRat 17 20 }] ∧
    DocumentAnalysis.coerceCellText "$0.00" = some 0 := ⟨rfl, rfl⟩

/-- C2 (amended): the cell text "$0.00" coerces to the numeric value 0.0,
and in the complete module's table extractor every row whose label
classifies to a canonical field and whose value scan coerces to 0.0
records that canonical field with value 0.0 — the `is not None` check
keeps a coerced zero. -/
theorem c2_zero_recorded_complete :
    DocumentAnalysis.coerceCellText "$0.00" = some 0 ∧
    ∀ (rd : List (Nat × String)) (label0 k : String) (fs : List (String × FieldDataC)),
      lookupKey rd 0 = some label0 →
      DocumentAnalysisComplete.classifyRow (lowerStr label0) = some k →
      DocumentAnalysisComplete.rowValue rd = some 0 →
      DocumentAnalysisComplete.processRow fs rd =
        dupsert fs k (DocumentAnalysisComplete.mkTableField 0) := by
  refine ⟨rfl, fun rd label0 k fs h0 hk hv => ?_⟩
  simp only [DocumentAnalysisComplete.processRow, h0, hv, hk]

/-- C2 witness: the "Revenue" / "$0.00" row records revenue 0.0. -/
theorem c2_witness :
    DocumentAnalysisComplete.processRow [] [(0, "Revenue"), (1, "$0.00")] =
      [("pnl_total_revenue", DocumentAnalysisComplete.mkTableField 0)] := by
  rw [c2_zero_recorded_complete.2 [(0, "Revenue"), (1, "$0.00")]
    "Revenue" "pnl_total_revenue" [] rfl rfl rfl]
  rfl

/-- C3 (counterexample): in the complete module's table extractor, rows
("Revenue", "$100") and ("Sales", "$200") both classify to
`pnl_total_revenue` and the LATER row's value 200 is recorded — the first
match does not win. -/
theorem c3_last_row_wins_example :
    DocumentAnalysisComplete.extract_pnl_from_tables [rsTable] =
      [("pnl_total_revenue", DocumentAnalysisComplete.mkTableField 200)] ∧
    DocumentAnalysisComplete.mkTableField 200 ≠ DocumentAnalysisComplete.mkTableField 100 :=
  ⟨rfl, by decide⟩

/-- C3 (amended): in the row iteration of the complete module's table
extractor, a later row that classifies to a canonical field overwrites it
— after processing any row sequence ending in a row that classifies to `k`
with value `v`, the recorded value for `k` is `v` (last match per field
wins). -/
theorem c3_overwrite (fs : List (String × FieldDataC))
    (rows : List (Nat × List (Nat × String))) (i : Nat) (row : List (Nat × String))
    (label0 : String) (v : Rat) (k : String)
    (h0 : lookupKey row 0 = some label0)
    (hv : DocumentAnalysisComplete.rowValue row = some v)
    (hk : DocumentAnalysisComplete.classifyRow (lowerStr label0) = some k) :
    lookupKey ((rows ++ [(i, row)]).foldl
        (fun fs rd => DocumentAnalysisComplete.processRow fs rd.2) fs) k =
      some (DocumentAnalysisComplete.mkTableField v) := by
  rw [List.foldl_append, List.foldl_cons, List.foldl_nil]
  dsimp only
  simp only [DocumentAnalysisComplete.processRow, h0, hv, hk]
  exact lookupKey_dupsert_self _ _ _

/-- C3 witness: appending the ("Sales", "$200") row after the
("Revenue", "$100") row leaves `pnl_total_revenue = 200`. -/
theorem c3_witness :
    lookupKey (([((0 : Nat), [((0 : Nat), "Revenue"), (1, "$100")])] ++
        [(1, [((0 : Nat), "Sales"), (1, "$200")])]).foldl
        (fun (fs : List (String × FieldDataC)) (rd : Nat × List (Nat × String)) =>
          DocumentAnalysisComplete.processRow fs rd.2) []) "pnl_total_revenue" =
      some (DocumentAnalysisComplete.mkTableField 200) :=
  c3_overwrite [] [(0, [(0, "Revenue"), (1, "$100")])] 1 [(0, "Sales"), (1, "$200")]
    "Sales" 200 "pnl_total_revenue" rfl rfl rfl

/-- C4 (counterexample): the active module's document-field path passes the
upstream `value_type` through — a field with `value_type = "currency"` and
only the non-numeric content "abc" yields an ExtractedField of type
"currency" whose value is the string "abc", not a number. -/
theorem c4_currency_nonnumeric_active :
    (DocumentAnalysis.process_azure_result c4Input "now").analyzeResult.documents =
      [{ docType := "PNL"
         fields := [("Revenue",
           { type := "currency", value := Scalar.str "abc", valueString := "abc",
             confidence := mkRat 9 10, content := "abc" })]
         confidence := mkRat 17 20 }] ∧
    isNum (Scalar.str "abc") = false := ⟨rfl, rfl⟩

/-- C4 (amended): in the complete module, the invariant holds — a field
produced by the field mapper or the table extractor with type "currency"
always carries a numeric value, and coercion failure degrades the type to
"string" with the raw content kept (no exception path exists). -/
theorem c4_currency_invariant_complete :
    (∀ (n : String) (f : DocumentAnalysisComplete.RawFieldC),
      (DocumentAnalysisComplete.mapFieldC n f).2.type = "currency" →
      isNum (DocumentAnalysisComplete.mapFieldC n f).2.value = true) ∧
    (∀ (tables : List TableData) (p : String × FieldDataC),
      p ∈ DocumentAnalysisComplete.extract_pnl_from_tables tables →
      p.2.type = "currency" → isNum p.2.value = true) := by
  constructor
  · intro n f h
    dsimp only [DocumentAnalysisComplete.mapFieldC] at h ⊢
    by_cases hv : isNum (DocumentAnalysisComplete.coerceFieldValue f) = true
    · exact hv
    · rw [if_neg hv] at h
      exact absurd h (by decide)
  · intro tables p hp _
    exact (DocumentAnalysisComplete.extract_pnl_from_tables_mem hp).2

/-- C4 witness: a field with a native number maps to type "currency" with a
numeric value. -/
theorem c4_witness :
    isNum (DocumentAnalysisComplete.mapFieldC "Revenue"
      { content := "$5", value_number := some 5, value_string := none,
        confidence := 1 }).2.value = true :=
  c4_currency_invariant_complete.1 "Revenue" _ rfl

/-- C7 (counterexample): the active module's adjacent-value search scans
cells in list order, so on the row Revenue | 100 | 200 it takes 100 (the
first parsed cell), not the value 200 of the greatest column index, even
though that cell coerces. -/
theorem c7_leftmost_wins_active :
    DocumentAnalysis.find_adjacent_value c7Table
      { kind := "content", rowIndex := 0, columnIndex := 0, content := "Revenue" } = 100 ∧
    DocumentAnalysis.coerceCellText "200" = some 200 ∧ (100 : Rat) ≠ 200 :=
  ⟨rfl, rfl, by decide⟩

/-- C7 (amended): in the complete module's table extractor the claim holds
— the row value is the coercion of the cell with the greatest column index
among the coercible ones: if column `c` coerces and every greater column
fails, the descending scan returns column `c`'s value. -/
theorem c7_rightmost_wins_complete (row : List (Nat × String)) (c : Nat) (v : Rat)
    (hnd : (keysOf row).Nodup) (hc : c ∈ keysOf row)
    (hv : DocumentAnalysisComplete.colValue row c = some v)
    (hfail : ∀ x ∈ keysOf row, c < x → DocumentAnalysisComplete.colValue row x = none) :
    DocumentAnalysisComplete.rowValue row = some v := by
  unfold DocumentAnalysisComplete.rowValue DocumentAnalysisComplete.sortDesc
  have hperm := List.perm_insertionSort (fun a b : Nat => b ≤ a) (keysOf row)
  apply DocumentAnalysisComplete.findSome_sorted_max
  · exact List.sorted_insertionSort _ _
  · exact hperm.nodup_iff.mpr hnd
  · exact hperm.mem_iff.mpr hc
  · exact hv
  · intro x hx hcx
    exact hfail x (hperm.mem_iff.mp hx) hcx

/-- C7 witness: on the row Revenue | abc | 100 | xyz, column 2 is the
greatest coercible column and its value 100 is taken. -/
theorem c7_witness : DocumentAnalysisComplete.rowValue c7Row = some 100 :=
  c7_rightmost_wins_complete c7Row 2 100 (by decide) (by decide) rfl (by decide)

/-- C8 (counterexample): the active module's document-field path is not the
claimed total mapper — the field "Foo" is dropped entirely by the keyword
allowlist, and the kept field "Revenue" is stored under its original name,
which is neither a member of the canonical set nor the lower-cased
original. -/
theorem c8_active_path_filters :
    (DocumentAnalysis.process_azure_result c8Input "now").analyzeResult.documents.map
        (fun d => keysOf d.fields) = [["Revenue"]] ∧
    "Revenue" ∉ DocumentAnalysisComplete.canonicalNames ∧
    "Revenue" ≠ lowerStr "Revenue" := ⟨rfl, by decide, by decide⟩

/-- Every alias in the complete module's mapping table targets a canonical
name. -/
theorem pnl_field_mapping_canonical :
    ∀ p ∈ DocumentAnalysisComplete.pnl_field_mapping,
      p.2 ∈ DocumentAnalysisComplete.canonicalNames := by decide

/-- The mapped name is canonical or the lower-cased original. -/
theorem mapFieldName_canonical_or_lower (n : String) :
    DocumentAnalysisComplete.mapFieldName n ∈ DocumentAnalysisComplete.canonicalNames ∨
      DocumentAnalysisComplete.mapFieldName n = lowerStr n := by
  unfold DocumentAnalysisComplete.mapFieldName
  rcases h : lookupKey DocumentAnalysisComplete.pnl_field_mapping n with _ | v
  · exact Or.inr rfl
  · exact Or.inl (pnl_field_mapping_canonical _ (lookupKey_mem h))

/-- C8 (amended): the complete module's Field Mapper is total — every
(vendor name, raw field) pair of the input yields exactly one entry in the
output dict under its mapped name, and the mapped name is a member of the
closed canonical set or the lower-cased original vendor name.  (A name
collision between two vendor fields updates the shared entry rather than
creating a second one.) -/
theorem c8_field_mapper_total_complete (fs : List (String × DocumentAnalysisComplete.RawFieldC))
    (n : String) (f : DocumentAnalysisComplete.RawFieldC) (h : (n, f) ∈ fs) :
    (keysOf (DocumentAnalysisComplete.processDocFieldsC fs)).count
        (DocumentAnalysisComplete.mapFieldName n) = 1 ∧
    (DocumentAnalysisComplete.mapFieldName n ∈ DocumentAnalysisComplete.canonicalNames ∨
      DocumentAnalysisComplete.mapFieldName n = lowerStr n) := by
  refine ⟨?_, mapFieldName_canonical_or_lower n⟩
  rw [DocumentAnalysisComplete.processDocFieldsC_eq_foldl]
  have hmem : DocumentAnalysisComplete.mapFieldName n ∈
      keysOf (fs.foldl DocumentAnalysisComplete.foldStep []) :=
    DocumentAnalysisComplete.foldl_foldStep_mem fs [] _ (Or.inr ⟨(n, f), h, rfl⟩)
  have hnd : (keysOf (fs.foldl DocumentAnalysisComplete.foldStep [])).Nodup :=
    DocumentAnalysisComplete.foldl_foldStep_nodup fs [] List.nodup_nil
  exact List.count_eq_one_of_mem hnd hmem

/-- C8 witness: the vendor field "COGS" yields exactly the canonical entry
`pnl_cost_of_goods_sold`. -/
theorem c8_witness :
    (keysOf (DocumentAnalysisComplete.processDocFieldsC
        [("COGS", { content := "$5,000", value_number := none,
                    value_string := some "$5,000", confidence := mkRat 9 10 })])).count
        (DocumentAnalysisComplete.mapFieldName "COGS") = 1 ∧
    (DocumentAnalysisComplete.mapFieldName "COGS" ∈ DocumentAnalysisComplete.canonicalNames ∨
      DocumentAnalysisComplete.mapFieldName "COGS" = lowerStr "COGS") :=
  c8_field_mapper_total_complete _ "COGS"
    { content := "$5,000", value_number := none,
      value_string := some "$5,000", confidence := mkRat 9 10 }
    (List.mem_singleton.mpr rfl)
